import Mathlib

/-!
Verification of the client-side prediction / server-reconciliation
networking core of the Pudge-Wars multiplayer game.

Each JavaScript module is shallowly embedded as Lean definitions:
  - `NetProtocol`  : quantization, player-state delta compression and
                     validation (src/unnamed/part_000, the shared protocol
                     file `NetProtocol`);
  - `InputBuffer`  : sequenced input buffering with cumulative acks
                     (src/unnamed/part_001, `InputBuffer.js`);
  - `TimeSync`     : ping/pong clock synchronisation with EMA smoothing
                     (src/client/net/TimeSync.js);
  - `Reconciler`   : server reconciliation with smoothed correction
                     (src/client/net/Reconciler.js);
  - `Game3D`       : snapshot interpolation / extrapolation and the
                     jitter-adaptive interpolation delay (src/game3d.js);
  - `NetClient`    : delta-state application and the adaptive delay helper
                     (src/client/net/NetClient.js).

JavaScript numbers are modelled as rationals (ℚ) except where the code
takes a square root (`Reconciler`), which is modelled over ℝ with
`Real.sqrt`.  `Math.round v` is modelled as `⌊v + 1/2⌋`, which agrees with
the JavaScript semantics on all finite inputs.
-/

namespace NetProtocol

/-- A full player entity state as carried in snapshots
(playerId, x, z, health, isDead, isMoving). -/
structure PlayerState where
  playerId : Nat
  x : ℚ
  z : ℚ
  health : ℚ
  isDead : Bool
  isMoving : Bool
deriving DecidableEq, Repr

/-- A (possibly partial) player delta object: the fields other than
`playerId` are present only when they changed; `full` marks a full-state
delta produced when no previous state was cached. -/
structure PlayerDelta where
  playerId : Nat
  x : Option ℚ
  z : Option ℚ
  health : Option ℚ
  isDead : Option Bool
  isMoving : Option Bool
  full : Bool
deriving DecidableEq, Repr

/-- `NetProtocol.quantizePosition`: `Math.round(value * 100) / 100`. -/
def quantizePosition (value : ℚ) : ℚ := (⌊value * 100 + 1/2⌋ : ℚ) / 100

/-- `NetProtocol.calculatePlayerDelta(current, previous)`: with no previous
state, the full state tagged `full`; otherwise the fields whose change
exceeds the per-field threshold (strict `>` 0.01 for positions, `!==` for
health/flags), or `none` (JS `null`) when nothing changed. -/
def calculatePlayerDelta (current : PlayerState) (previous : Option PlayerState) :
    Option PlayerDelta :=
  match previous with
  | none => some { playerId := current.playerId, x := some current.x,
                   z := some current.z, health := some current.health,
                   isDead := some current.isDead, isMoving := some current.isMoving,
                   full := true }
  | some prev =>
    let posThreshold : ℚ := 1/100
    let dx : Option ℚ :=
      if |current.x - prev.x| > posThreshold then some (quantizePosition current.x) else none
    let dz : Option ℚ :=
      if |current.z - prev.z| > posThreshold then some (quantizePosition current.z) else none
    let dh : Option ℚ := if current.health ≠ prev.health then some current.health else none
    let dd : Option Bool := if current.isDead ≠ prev.isDead then some current.isDead else none
    let dm : Option Bool :=
      if current.isMoving ≠ prev.isMoving then some current.isMoving else none
    if dx.isSome || dz.isSome || dh.isSome || dd.isSome || dm.isSome then
      some { playerId := current.playerId, x := dx, z := dz, health := dh,
             isDead := dd, isMoving := dm, full := false }
    else none

/-- `NetProtocol.applyDelta(delta, previous)`: if the delta is full or no
previous state exists the delta is the new state; otherwise delta fields
overwrite a copy of the previous state (JS object spread). -/
def applyDelta (delta : PlayerDelta) (previous : Option PlayerState) : PlayerDelta :=
  match previous with
  | none => delta
  | some p =>
    if delta.full then delta
    else
      { playerId := delta.playerId
        x := some (delta.x.getD p.x)
        z := some (delta.z.getD p.z)
        health := some (delta.health.getD p.health)
        isDead := some (delta.isDead.getD p.isDead)
        isMoving := some (delta.isMoving.getD p.isMoving)
        full := false }

/-- View a full player state as the (all-fields-present) delta-shaped
object it is compared against field-for-field. -/
def stateAsDelta (s : PlayerState) : PlayerDelta :=
  { playerId := s.playerId, x := some s.x, z := some s.z, health := some s.health,
    isDead := some s.isDead, isMoving := some s.isMoving, full := false }

/-- A player state with its position fields quantized (the only fields the
codec quantizes). -/
def quantizeState (s : PlayerState) : PlayerState :=
  { s with x := quantizePosition s.x, z := quantizePosition s.z }

/-- The round trip of the delta round-trip property: compute the delta from
`A` to `B`, then apply it back on `A`; a `null` delta means the transmission
is elided and the receiver keeps `A`. -/
def roundTripResult (B A : PlayerState) : PlayerDelta :=
  match calculatePlayerDelta B (some A) with
  | none => stateAsDelta A
  | some d => applyDelta d (some A)

end NetProtocol

namespace NetProtocol

/-- JavaScript values as far as the payload validators inspect them:
finite numbers, NaN, the two infinities, and the non-number types. -/
inductive JSVal where
  | num (q : ℚ)
  | nan
  | posInf
  | negInf
  | str
  | boolean (b : Bool)
  | undef
  | nullv
deriving DecidableEq, Repr

/-- JS `typeof v === 'number'`: true for finite numbers, NaN and the
infinities. -/
def typeofIsNumber : JSVal → Bool
  | .num _ => true
  | .nan => true
  | .posInf => true
  | .negInf => true
  | _ => false

/-- JS `isNaN(v)` restricted to number-typed values (the validators only
reach `isNaN` after the `typeof` check has passed). -/
def jsIsNaN : JSVal → Bool
  | .nan => true
  | _ => false

/-- JS `Math.abs(v) > 200` on number-typed values: false for NaN (every
NaN comparison is false), true for both infinities. -/
def jsAbsGT200 : JSVal → Bool
  | .num q => decide (|q| > 200)
  | .posInf => true
  | .negInf => true
  | _ => false

/-- The two coordinate fields of an inbound move / knife-throw payload;
the validators inspect no other field. -/
structure TargetPayload where
  targetX : JSVal
  targetZ : JSVal
deriving DecidableEq, Repr

/-- `NetProtocol.validateMoveCommand(data)`: typeof check, NaN check, then
the `|…| > 200` bounds check. -/
def validateMoveCommand (data : TargetPayload) : Bool :=
  if ¬ (typeofIsNumber data.targetX) ∨ ¬ (typeofIsNumber data.targetZ) then false
  else if jsIsNaN data.targetX ∨ jsIsNaN data.targetZ then false
  else if jsAbsGT200 data.targetX ∨ jsAbsGT200 data.targetZ then false
  else true

/-- `NetProtocol.validateKnifeThrowCommand(data)`: typeof check and NaN
check only — the source has no bounds check here. -/
def validateKnifeThrowCommand (data : TargetPayload) : Bool :=
  if ¬ (typeofIsNumber data.targetX) ∨ ¬ (typeofIsNumber data.targetZ) then false
  else if jsIsNaN data.targetX ∨ jsIsNaN data.targetZ then false
  else true

/-- `v` is a finite number (number-typed, not NaN, not infinite). -/
def isFiniteNumber : JSVal → Bool
  | .num _ => true
  | _ => false

end NetProtocol

/-- C1 (counterexample): the delta round-trip does not reconstruct the
current state after quantization.  With `A.x = 0` and `B.x = 0.01` the
change equals the 0.01 threshold, so it is not strictly above it, the `x`
field is omitted, the delta is `null`, and the receiver keeps `A.x = 0`
although the quantized current value is `0.01`. -/
theorem delta_roundTrip_counterexample :
    NetProtocol.roundTripResult
        { playerId := 1, x := 1/100, z := 0, health := 100, isDead := false, isMoving := false }
        { playerId := 1, x := 0, z := 0, health := 100, isDead := false, isMoving := false } ≠
      NetProtocol.stateAsDelta (NetProtocol.quantizeState
        { playerId := 1, x := 1/100, z := 0, health := 100, isDead := false, isMoving := false }) := by
  have hδ : NetProtocol.calculatePlayerDelta
      { playerId := 1, x := 1/100, z := 0, health := 100, isDead := false, isMoving := false }
      (some { playerId := 1, x := 0, z := 0, health := 100, isDead := false, isMoving := false }) =
      none := by
    norm_num [NetProtocol.calculatePlayerDelta, abs_of_nonneg]
  unfold NetProtocol.roundTripResult
  rw [hδ]
  intro h
  have hx := congrArg NetProtocol.PlayerDelta.x h
  simp only [NetProtocol.stateAsDelta, NetProtocol.quantizeState, Option.some.injEq] at hx
  rw [show NetProtocol.quantizePosition (1/100) = 1/100 from by
        norm_num [NetProtocol.quantizePosition]] at hx
  norm_num at hx

/-- C1 (amended): for two states of the same entity whose position fields
are quantization-stable, the delta round-trip reconstructs the current
state after quantization provided each position field either changed by
strictly more than the 0.01 threshold or did not change at all; a field
whose change is nonzero but within the threshold is the exact situation of
the counterexample and is excluded. -/
theorem delta_roundTrip_amended (A B : NetProtocol.PlayerState)
    (hid : B.playerId = A.playerId)
    (hx : |B.x - A.x| > 1/100 ∨ B.x = A.x)
    (hz : |B.z - A.z| > 1/100 ∨ B.z = A.z)
    (hqx : NetProtocol.quantizePosition B.x = B.x)
    (hqz : NetProtocol.quantizePosition B.z = B.z) :
    NetProtocol.roundTripResult B A =
      NetProtocol.stateAsDelta (NetProtocol.quantizeState B) := by
  unfold NetProtocol.roundTripResult NetProtocol.calculatePlayerDelta
  rcases hx with hx|hx <;> rcases hz with hz|hz <;>
  by_cases h3 : B.health = A.health <;>
  by_cases h4 : B.isDead = A.isDead <;>
  by_cases h5 : B.isMoving = A.isMoving <;>
  simp_all [NetProtocol.applyDelta, NetProtocol.stateAsDelta, NetProtocol.quantizeState,
            NetProtocol.PlayerDelta.mk.injEq, NetProtocol.PlayerState.mk.injEq,
            show (((100:ℚ) < 0)) = False from by norm_num]

/-- C1 (witness): a concrete round trip through `delta_roundTrip_amended`,
with `x` changed well past the threshold, `z` unchanged, and health and
both flags changed. -/
theorem delta_roundTrip_amended_witness :
    NetProtocol.roundTripResult
        { playerId := 7, x := 5, z := 0, health := 80, isDead := true, isMoving := true }
        { playerId := 7, x := 0, z := 0, health := 100, isDead := false, isMoving := false } =
      NetProtocol.stateAsDelta (NetProtocol.quantizeState
        { playerId := 7, x := 5, z := 0, health := 80, isDead := true, isMoving := true }) :=
  delta_roundTrip_amended _ _ rfl
    (Or.inl (by norm_num [abs_of_nonneg]))
    (Or.inr rfl)
    (by norm_num [NetProtocol.quantizePosition])
    (by norm_num [NetProtocol.quantizePosition])

/-- C8 (counterexample): `validateKnifeThrowCommand` accepts a payload
whose `targetX` is outside the configured coordinate bound (300 with the
bound at 200), and also one whose `targetX` is `Infinity`, a non-finite
number; the claim says both must be rejected by the corresponding
validator. -/
theorem validateKnifeThrow_counterexample :
    NetProtocol.validateKnifeThrowCommand ⟨.num 300, .num 0⟩ = true ∧
      ((300:ℚ) > 200) ∧
      NetProtocol.validateKnifeThrowCommand ⟨.posInf, .num 0⟩ = true :=
  ⟨rfl, by norm_num, rfl⟩

set_option linter.unnecessarySeqFocus false in
/-- C8 (amended): `validateMoveCommand` rejects every payload with a
non-finite or out-of-bound coordinate, as the claim states; but
`validateKnifeThrowCommand` rejects exactly the payloads with a
non-number-typed or NaN coordinate — it has no bounds check and accepts
infinities.  Both validators are total Boolean functions (they never
throw) by construction. -/
theorem validateCommands_amended (d : NetProtocol.TargetPayload) :
    ((NetProtocol.isFiniteNumber d.targetX = false ∨
      NetProtocol.isFiniteNumber d.targetZ = false ∨
      NetProtocol.jsAbsGT200 d.targetX = true ∨
      NetProtocol.jsAbsGT200 d.targetZ = true) →
      NetProtocol.validateMoveCommand d = false) ∧
    (NetProtocol.validateKnifeThrowCommand d = false ↔
      (NetProtocol.typeofIsNumber d.targetX = false ∨
       NetProtocol.typeofIsNumber d.targetZ = false ∨
       NetProtocol.jsIsNaN d.targetX = true ∨
       NetProtocol.jsIsNaN d.targetZ = true)) := by
  obtain ⟨tx, tz⟩ := d
  cases tx <;> cases tz <;>
    simp [NetProtocol.validateMoveCommand, NetProtocol.validateKnifeThrowCommand,
          NetProtocol.isFiniteNumber, NetProtocol.typeofIsNumber, NetProtocol.jsIsNaN,
          NetProtocol.jsAbsGT200] <;>
    first
      | tauto
      | (rintro (h | h) h1
         exacts [absurd h1 (not_le.mpr h), h])

/-- C8 (witness): `validateCommands_amended` at a payload whose `targetX`
is NaN: the move validator rejects it, and the knife validator's rejection
characterization holds. -/
theorem validateCommands_amended_witness :
    NetProtocol.validateMoveCommand ⟨.nan, .num 0⟩ = false ∧
      NetProtocol.validateKnifeThrowCommand ⟨.nan, .num 0⟩ = false :=
  ⟨(validateCommands_amended ⟨.nan, .num 0⟩).1 (Or.inl rfl),
   (validateCommands_amended ⟨.nan, .num 0⟩).2.mpr (Or.inr (Or.inr (Or.inl rfl)))⟩

namespace InputBuffer

/-- A buffered input entry: sequence number, cloned payload
(targetX, targetZ) and creation timestamp. -/
structure Entry where
  seq : Nat
  input : ℚ × ℚ
  timestamp : ℚ
deriving DecidableEq, Repr

/-- The mutable fields of an `InputBuffer` instance. -/
structure State where
  nextSeq : Nat
  buffer : List Entry
  lastProcessedSeq : Nat
  totalInputs : Nat
  totalAcked : Nat
deriving DecidableEq, Repr

/-- The constructor's initial state. -/
def initState : State :=
  { nextSeq := 1, buffer := [], lastProcessedSeq := 0, totalInputs := 0, totalAcked := 0 }

/-- `InputBuffer.addInput(input)`: allocate the next sequence number,
append the entry, evict the oldest when the buffer exceeds 100 entries,
return the new state and the assigned sequence. -/
def addInput (s : State) (input : ℚ × ℚ) (timestamp : ℚ) : State × Nat :=
  let seq := s.nextSeq
  let buf := s.buffer ++ [{ seq := seq, input := input, timestamp := timestamp }]
  let buf := if buf.length > 100 then buf.tail else buf
  ({ s with nextSeq := s.nextSeq + 1, buffer := buf, totalInputs := s.totalInputs + 1 }, seq)

/-- `InputBuffer.acknowledge(lastProcessedSeq)`: no-op when the cursor is
not strictly greater than the current one; otherwise drop the entries with
`seq ≤ cursor`, count them into `totalAcked`, and advance the cursor. -/
def acknowledge (s : State) (lastProcessedSeq : Nat) : State :=
  if lastProcessedSeq ≤ s.lastProcessedSeq then s
  else
    let buf := s.buffer.filter (fun item => item.seq > lastProcessedSeq)
    { s with buffer := buf,
             totalAcked := s.totalAcked + (s.buffer.length - buf.length),
             lastProcessedSeq := lastProcessedSeq }

/-- A finite sequence of `acknowledge` calls, in order. -/
def ackAll (s : State) (cs : List Nat) : State := cs.foldl acknowledge s

/-- `InputBuffer.getUnacknowledgedInputs()`: a snapshot copy of the
buffer. -/
def getUnacknowledgedInputs (s : State) : List Entry := s.buffer

/-- Every buffered entry's sequence is above the ack cursor — the
steady-state invariant of the buffer (entries are buffered with fresh
sequence numbers and dropped as soon as the cursor passes them). -/
def SeqAbove (s : State) : Prop := ∀ e ∈ s.buffer, e.seq > s.lastProcessedSeq

theorem acknowledge_lastProcessedSeq (s : State) (c : Nat) :
    (acknowledge s c).lastProcessedSeq = Nat.max s.lastProcessedSeq c := by
  unfold acknowledge
  split_ifs with h
  · exact (Nat.max_eq_left h).symm
  · exact (Nat.max_eq_right (Nat.le_of_lt (Nat.lt_of_not_le h))).symm

theorem acknowledge_buffer (s : State) (c : Nat) (hinv : SeqAbove s) :
    (acknowledge s c).buffer =
      s.buffer.filter (fun e => e.seq > Nat.max s.lastProcessedSeq c) := by
  unfold acknowledge
  split_ifs with h
  · have hmax : Nat.max s.lastProcessedSeq c = s.lastProcessedSeq := Nat.max_eq_left h
    rw [hmax]
    exact (List.filter_eq_self.mpr (fun e he => decide_eq_true (hinv e he))).symm
  · have hmax : Nat.max s.lastProcessedSeq c = c :=
      Nat.max_eq_right (Nat.le_of_lt (Nat.lt_of_not_le h))
    rw [hmax]

theorem acknowledge_seqAbove (s : State) (c : Nat) (hinv : SeqAbove s) :
    SeqAbove (acknowledge s c) := by
  intro e he
  rw [acknowledge_buffer s c hinv] at he
  rw [acknowledge_lastProcessedSeq]
  exact of_decide_eq_true (List.mem_filter.mp he).2

theorem foldl_max_max (cs : List Nat) (a b : Nat) :
    cs.foldl Nat.max (Nat.max a b) = Nat.max a (cs.foldl Nat.max b) := by
  induction cs generalizing b with
  | nil => rfl
  | cons c cs ih =>
    show cs.foldl Nat.max (Nat.max (Nat.max a b) c) = _
    have h : Nat.max (Nat.max a b) c = Nat.max a (Nat.max b c) := Nat.max_assoc a b c
    rw [h]
    exact ih (Nat.max b c)

theorem le_foldl_max (cs : List Nat) (b : Nat) : b ≤ cs.foldl Nat.max b := by
  induction cs generalizing b with
  | nil => exact Nat.le_refl b
  | cons c cs ih => exact Nat.le_trans (Nat.le_max_left b c) (ih (Nat.max b c))

theorem ackAll_spec (cs : List Nat) (s : State) (hinv : SeqAbove s) :
    (ackAll s cs).buffer =
        s.buffer.filter (fun e => e.seq > cs.foldl Nat.max s.lastProcessedSeq) ∧
      (ackAll s cs).lastProcessedSeq = cs.foldl Nat.max s.lastProcessedSeq := by
  induction cs generalizing s with
  | nil =>
    exact ⟨(List.filter_eq_self.mpr (fun e he => decide_eq_true (hinv e he))).symm, rfl⟩
  | cons c cs ih =>
    obtain ⟨ihbuf, ihseq⟩ := ih (acknowledge s c) (acknowledge_seqAbove s c hinv)
    refine ⟨?_, ?_⟩
    · show (ackAll (acknowledge s c) cs).buffer = _
      rw [ihbuf, acknowledge_buffer s c hinv, acknowledge_lastProcessedSeq,
          List.filter_filter]
      simp only [List.foldl_cons]
      refine List.filter_congr (fun e he => ?_)
      by_cases hA : e.seq > cs.foldl Nat.max (Nat.max s.lastProcessedSeq c)
      · have hB : e.seq > Nat.max s.lastProcessedSeq c :=
          Nat.lt_of_le_of_lt (le_foldl_max cs _) hA
        rw [decide_eq_true hA, decide_eq_true hB]
        rfl
      · rw [decide_eq_false hA]
        exact Bool.false_and _
    · show (ackAll (acknowledge s c) cs).lastProcessedSeq = _
      rw [ihseq, acknowledge_lastProcessedSeq]
      rfl


end InputBuffer

/-- C2: starting from a buffer whose entries all sit above the ack cursor
(the steady-state invariant), any finite nonempty sequence of
`acknowledge` calls, in any order and with duplicates, leaves exactly the
entries with `seq` strictly greater than the maximum cursor; a single call
with a cursor at or below `lastProcessedSeq` changes nothing, and an
accepted call removes exactly the entries with `seq ≤ cursor` and sets
`lastProcessedSeq` to the cursor, so `lastProcessedSeq` never decreases. -/
theorem inputBuffer_acknowledge_spec (s : InputBuffer.State) (c c2 : Nat) (cs : List Nat)
    (hinv : InputBuffer.SeqAbove s) :
    (InputBuffer.ackAll s (c :: cs)).buffer =
        s.buffer.filter (fun e => e.seq > cs.foldl Nat.max c) ∧
      (c2 ≤ s.lastProcessedSeq → InputBuffer.acknowledge s c2 = s) ∧
      (c2 > s.lastProcessedSeq →
        (InputBuffer.acknowledge s c2).buffer = s.buffer.filter (fun e => e.seq > c2) ∧
          (InputBuffer.acknowledge s c2).lastProcessedSeq = c2) ∧
      s.lastProcessedSeq ≤ (InputBuffer.acknowledge s c2).lastProcessedSeq := by
  refine ⟨?_, ?_, ?_, ?_⟩
  · obtain ⟨hbuf, -⟩ := InputBuffer.ackAll_spec (c :: cs) s hinv
    rw [hbuf]
    simp only [List.foldl_cons]
    refine List.filter_congr (fun e he => ?_)
    simp only [decide_eq_decide, gt_iff_lt]
    rw [InputBuffer.foldl_max_max, Nat.max_lt]
    exact ⟨fun h => h.2, fun h => ⟨hinv e he, h⟩⟩
  · intro h
    unfold InputBuffer.acknowledge
    rw [if_pos h]
  · intro h
    unfold InputBuffer.acknowledge
    rw [if_neg (Nat.not_le.mpr h)]
    exact ⟨rfl, rfl⟩
  · rw [InputBuffer.acknowledge_lastProcessedSeq]
    exact Nat.le_max_left _ _

/-- C2 (witness): a buffer holding sequences 1..5 with cursor 0,
acknowledged with the out-of-order, duplicated cursors 3, 1, 3; entries
4 and 5 remain. -/
theorem inputBuffer_acknowledge_spec_witness :
    ((InputBuffer.ackAll
        { nextSeq := 6,
          buffer := [ { seq := 1, input := (0, 0), timestamp := 0 },
                      { seq := 2, input := (0, 0), timestamp := 0 },
                      { seq := 3, input := (0, 0), timestamp := 0 },
                      { seq := 4, input := (0, 0), timestamp := 0 },
                      { seq := 5, input := (0, 0), timestamp := 0 } ],
          lastProcessedSeq := 0, totalInputs := 5, totalAcked := 0 } [3, 1, 3]).buffer =
      ([ { seq := 1, input := (0, 0), timestamp := 0 },
         { seq := 2, input := (0, 0), timestamp := 0 },
         { seq := 3, input := (0, 0), timestamp := 0 },
         { seq := 4, input := (0, 0), timestamp := 0 },
         { seq := 5, input := (0, 0), timestamp := 0 } ] :
           List InputBuffer.Entry).filter (fun e => e.seq > [1, 3].foldl Nat.max 3)) ∧
      ((InputBuffer.ackAll
        { nextSeq := 6,
          buffer := [ { seq := 1, input := (0, 0), timestamp := 0 },
                      { seq := 2, input := (0, 0), timestamp := 0 },
                      { seq := 3, input := (0, 0), timestamp := 0 },
                      { seq := 4, input := (0, 0), timestamp := 0 },
                      { seq := 5, input := (0, 0), timestamp := 0 } ],
          lastProcessedSeq := 0, totalInputs := 5, totalAcked := 0 } [3, 1, 3]).buffer.map
            InputBuffer.Entry.seq = [4, 5]) :=
  ⟨(inputBuffer_acknowledge_spec _ 3 1 [1, 3]
      (fun e he => by
        simp only [List.mem_cons, List.not_mem_nil, or_false] at he
        rcases he with h|h|h|h|h <;> subst h <;> decide)).1,
   by rfl⟩

namespace TimeSync

/-- EMA smoothing factor for the clock offset (`this.OFFSET_ALPHA`). -/
def OFFSET_ALPHA : ℚ := 1/10

/-- EMA smoothing factor for the RTT (`this.RTT_ALPHA`). -/
def RTT_ALPHA : ℚ := 1/5

/-- EMA smoothing factor for the jitter (`this.JITTER_ALPHA`). -/
def JITTER_ALPHA : ℚ := 1/10

/-- The mutable fields of a `TimeSync` instance; `pendingPings` is the
seq-keyed map of probes in flight, each holding its `clientSendTime`. -/
structure State where
  offset : ℚ
  rtt : ℚ
  jitter : ℚ
  pendingPings : List (Nat × ℚ)
  nextPingSeq : Nat
  syncCount : Nat
  lastSyncTime : ℚ
deriving DecidableEq, Repr

/-- `this.pendingPings.get(seq)`. -/
def lookupPending (m : List (Nat × ℚ)) (seq : Nat) : Option ℚ :=
  (m.find? (fun p => p.1 = seq)).map Prod.snd

/-- `this.pendingPings.delete(seq)`. -/
def removePending (m : List (Nat × ℚ)) (seq : Nat) : List (Nat × ℚ) :=
  m.filter (fun p => p.1 ≠ seq)

/-- `TimeSync.sendPing()` at local time `now`: allocate a probe sequence,
record the send time, and garbage-collect pending probes older than 5
seconds. -/
def sendPing (s : State) (now : ℚ) : State :=
  let seq := s.nextPingSeq
  let pendings := s.pendingPings ++ [(seq, now)]
  let cutoff := now - 5000
  { s with nextPingSeq := seq + 1,
           pendingPings := pendings.filter (fun p => ¬ (p.2 < cutoff)) }

/-- `TimeSync.handlePong(data)` at local receive time `clientReceiveTime`:
a response without a matching pending probe is discarded; otherwise the
probe is consumed, and the first sample sets `rtt`/`offset` directly while
later samples blend by the per-quantity EMA factors. -/
def handlePong (s : State) (seq : Nat) (serverTime clientReceiveTime : ℚ) : State :=
  match lookupPending s.pendingPings seq with
  | none => s
  | some clientSendTime =>
    let pendings := removePending s.pendingPings seq
    let measuredRTT := clientReceiveTime - clientSendTime
    let estimatedServerTimeNow := serverTime + measuredRTT / 2
    let measuredOffset := estimatedServerTimeNow - clientReceiveTime
    if s.syncCount = 0 then
      { s with rtt := measuredRTT, offset := measuredOffset,
               pendingPings := pendings, syncCount := s.syncCount + 1,
               lastSyncTime := clientReceiveTime }
    else
      let rttDelta := |measuredRTT - s.rtt|
      { s with jitter := JITTER_ALPHA * rttDelta + (1 - JITTER_ALPHA) * s.jitter,
               rtt := RTT_ALPHA * measuredRTT + (1 - RTT_ALPHA) * s.rtt,
               offset := OFFSET_ALPHA * measuredOffset + (1 - OFFSET_ALPHA) * s.offset,
               pendingPings := pendings, syncCount := s.syncCount + 1,
               lastSyncTime := clientReceiveTime }

end TimeSync

/-- C4: for a probe response matched to a pending probe sent at `st0`,
the first accepted sample (`syncCount = 0`) sets `rtt` and `offset`
directly to the measured values, and every later sample blends by EMA with
factor `OFFSET_ALPHA = 0.1` for the offset, `RTT_ALPHA = 0.2` for the RTT,
and `JITTER_ALPHA = 0.1` applied to the absolute RTT deviation. -/
theorem timeSync_handlePong_ema (s : TimeSync.State) (seq : Nat)
    (serverTime crt st0 : ℚ)
    (hpend : TimeSync.lookupPending s.pendingPings seq = some st0) :
    (s.syncCount = 0 →
      (TimeSync.handlePong s seq serverTime crt).rtt = crt - st0 ∧
        (TimeSync.handlePong s seq serverTime crt).offset =
          serverTime + (crt - st0) / 2 - crt) ∧
      (s.syncCount ≠ 0 →
        (TimeSync.handlePong s seq serverTime crt).offset =
            TimeSync.OFFSET_ALPHA * (serverTime + (crt - st0) / 2 - crt) +
              (1 - TimeSync.OFFSET_ALPHA) * s.offset ∧
          (TimeSync.handlePong s seq serverTime crt).rtt =
            TimeSync.RTT_ALPHA * (crt - st0) + (1 - TimeSync.RTT_ALPHA) * s.rtt ∧
          (TimeSync.handlePong s seq serverTime crt).jitter =
            TimeSync.JITTER_ALPHA * |crt - st0 - s.rtt| +
              (1 - TimeSync.JITTER_ALPHA) * s.jitter) ∧
      TimeSync.OFFSET_ALPHA = 1/10 ∧ TimeSync.RTT_ALPHA = 1/5 ∧
      TimeSync.JITTER_ALPHA = 1/10 := by
  unfold TimeSync.handlePong
  rw [hpend]
  dsimp only
  refine ⟨fun h => ?_, fun h => ?_, rfl, rfl, rfl⟩
  · rw [if_pos h]
    exact ⟨rfl, rfl⟩
  · rw [if_neg h]
    exact ⟨rfl, rfl, rfl⟩

/-- C4 (witness): the spec's concrete scenario — probe sent at local time
1000, response `serverTime = 1050` received at local time 1100 as the
first sample: measured RTT is 100 and the resulting offset is 0. -/
theorem timeSync_handlePong_ema_witness :
    (TimeSync.handlePong
        { offset := 0, rtt := 0, jitter := 0, pendingPings := [(1, 1000)],
          nextPingSeq := 2, syncCount := 0, lastSyncTime := 0 } 1 1050 1100).rtt =
        1100 - 1000 ∧
      (TimeSync.handlePong
        { offset := 0, rtt := 0, jitter := 0, pendingPings := [(1, 1000)],
          nextPingSeq := 2, syncCount := 0, lastSyncTime := 0 } 1 1050 1100).offset =
        1050 + (1100 - 1000) / 2 - 1100 ∧
      ((1100:ℚ) - 1000 = 100) ∧ ((1050:ℚ) + (1100 - 1000) / 2 - 1100 = 0) :=
  ⟨((timeSync_handlePong_ema
        { offset := 0, rtt := 0, jitter := 0, pendingPings := [(1, 1000)],
          nextPingSeq := 2, syncCount := 0, lastSyncTime := 0 }
        1 1050 1100 1000 rfl).1 rfl).1,
   ((timeSync_handlePong_ema
        { offset := 0, rtt := 0, jitter := 0, pendingPings := [(1, 1000)],
          nextPingSeq := 2, syncCount := 0, lastSyncTime := 0 }
        1 1050 1100 1000 rfl).1 rfl).2,
   by norm_num, by norm_num⟩

/-- C9: a probe response whose `seq` has no matching pending probe is a
silent no-op — the entire `TimeSync` state (offset, rtt, jitter, pending
map, syncCount, lastSyncTime) is returned unchanged. -/
theorem timeSync_handlePong_stale_noop (s : TimeSync.State) (seq : Nat)
    (serverTime crt : ℚ)
    (hpend : TimeSync.lookupPending s.pendingPings seq = none) :
    TimeSync.handlePong s seq serverTime crt = s := by
  unfold TimeSync.handlePong
  rw [hpend]

/-- C9 (witness): a pong for sequence 2 while only probe 1 is pending
leaves the state untouched. -/
theorem timeSync_handlePong_stale_noop_witness :
    TimeSync.handlePong
        { offset := 3, rtt := 40, jitter := 5, pendingPings := [(1, 1000)],
          nextPingSeq := 2, syncCount := 4, lastSyncTime := 900 } 2 1050 1100 =
      { offset := 3, rtt := 40, jitter := 5, pendingPings := [(1, 1000)],
        nextPingSeq := 2, syncCount := 4, lastSyncTime := 900 } :=
  timeSync_handlePong_stale_noop _ 2 1050 1100 rfl

namespace Game3D

/-- A buffered remote-entity snapshot (`this.opponentSnapshots` entries):
server timestamp, position, movement target and flag.  The heading
(`rotation`/`facing`) updates involve `Math.atan2` and are outside the
position claims, so they are not modelled. -/
structure Snapshot where
  timestamp : ℚ
  x : ℚ
  z : ℚ
  targetX : Option ℚ
  targetZ : Option ℚ
  isMoving : Bool
deriving DecidableEq, Repr, Inhabited

/-- The position-relevant fields of `this.playerOpponent`. -/
structure Opponent where
  x : ℚ
  z : ℚ
  targetX : Option ℚ
  targetZ : Option ℚ
  isMoving : Bool
deriving DecidableEq, Repr, Inhabited

/-- The bracketing-pair search loop of `interpolateOpponentPosition`: the
first consecutive pair with `snapshots[i].timestamp ≤ renderTime` and
`snapshots[i+1].timestamp ≥ renderTime`. -/
def findBracket (snaps : List Snapshot) (renderTime : ℚ) :
    Option (Snapshot × Snapshot) :=
  match snaps with
  | s0 :: s1 :: rest =>
    if s0.timestamp ≤ renderTime ∧ renderTime ≤ s1.timestamp then some (s0, s1)
    else findBracket (s1 :: rest) renderTime
  | _ => none

/-- `interpolateOpponentPosition()` with the ambient state passed
explicitly: the snapshot buffer, `serverNow = Date.now() − serverTimeOffset`,
the interpolation delay, and the current opponent record.  Returns the
updated opponent record. -/
def interpolateOpponentPosition (snaps : List Snapshot) (serverNow delay : ℚ)
    (opp : Opponent) : Opponent :=
  if snaps.length < 2 then opp
  else
    let renderTime := serverNow - delay
    match findBracket snaps renderTime with
    | some (s0, s1) =>
      let timeDiff := s1.timestamp - s0.timestamp
      let t := if timeDiff > 0 then (renderTime - s0.timestamp) / timeDiff else 0
      let clampedT := max 0 (min 1 t)
      { opp with x := s0.x + (s1.x - s0.x) * clampedT,
                 z := s0.z + (s1.z - s0.z) * clampedT,
                 targetX := s1.targetX, targetZ := s1.targetZ,
                 isMoving := s1.isMoving }
    | none =>
      let latest := (snaps.get? (snaps.length - 1)).getD default
      let base :=
        if 2 ≤ snaps.length then
          let prev := (snaps.get? (snaps.length - 2)).getD default
          let dt := latest.timestamp - prev.timestamp
          if 0 < dt ∧ dt < 200 then
            let vx := (latest.x - prev.x) / dt
            let vz := (latest.z - prev.z) / dt
            let extrapolationTime := min 100 (serverNow - latest.timestamp)
            { opp with x := latest.x + vx * extrapolationTime,
                       z := latest.z + vz * extrapolationTime }
          else
            { opp with x := latest.x, z := latest.z }
        else
          { opp with x := latest.x, z := latest.z }
      { base with targetX := latest.targetX, targetZ := latest.targetZ,
                  isMoving := latest.isMoving }

/-- `this.baseInterpolationDelay`. -/
def baseInterpolationDelay : ℚ := 30

/-- `this.minInterpolationDelay`. -/
def minInterpolationDelay : ℚ := 20

/-- `this.maxInterpolationDelay`. -/
def maxInterpolationDelay : ℚ := 70

/-- The delay computation of `updateAdaptiveInterpolationDelay()` as a
function of the observed jitter:
`Math.max(min, Math.min(max, base + jitter * 1.2))`. -/
def adaptiveDelay (jitter : ℚ) : ℚ :=
  let jitterCushion := jitter * (12/10)
  max minInterpolationDelay
    (min maxInterpolationDelay (baseInterpolationDelay + jitterCushion))

theorem findBracket_some_len (snaps : List Snapshot) (rt : ℚ)
    (p : Snapshot × Snapshot) (h : findBracket snaps rt = some p) :
    2 ≤ snaps.length := by
  match snaps with
  | [] => simp [findBracket] at h
  | [a] => simp [findBracket] at h
  | a :: b :: rest =>
    simp only [List.length_cons]
    omega

theorem findBracket_bracket (snaps : List Snapshot) (rt : ℚ) (s0 s1 : Snapshot)
    (h : findBracket snaps rt = some (s0, s1)) :
    s0.timestamp ≤ rt ∧ rt ≤ s1.timestamp := by
  induction snaps with
  | nil => simp [findBracket] at h
  | cons a rest ih =>
    cases rest with
    | nil => simp [findBracket] at h
    | cons b rest2 =>
      unfold findBracket at h
      split_ifs at h with hc
      · simp only [Option.some.injEq, Prod.mk.injEq] at h
        obtain ⟨h0, h1⟩ := h
        subst h0; subst h1
        exact hc
      · exact ih h

theorem findBracket_ahead (snaps : List Snapshot) (rt : ℚ)
    (h : ∀ s ∈ snaps, s.timestamp < rt) : findBracket snaps rt = none := by
  induction snaps with
  | nil => rfl
  | cons a rest ih =>
    cases rest with
    | nil => rfl
    | cons b rest2 =>
      unfold findBracket
      rw [if_neg]
      · exact ih (fun s hs => h s (List.mem_cons_of_mem a hs))
      · rintro ⟨-, hup⟩
        exact absurd hup (not_le.mpr (h b (List.mem_cons_of_mem a (List.mem_cons_self b rest2))))

end Game3D

namespace NetClient

/-- `options.minInterpolationDelay` (default). -/
def minInterpolationDelayOpt : ℚ := 50

/-- `options.maxInterpolationDelay` (default). -/
def maxInterpolationDelayOpt : ℚ := 200

/-- `NetClient.getAdaptiveInterpolationDelay()` as a function of the
current RTT and jitter: `(rtt / 2) + (jitter * 2) + 20`, clamped to the
configured bounds (`Math.max` with the minimum, then `Math.min` with the
maximum). -/
def getAdaptiveInterpolationDelay (rtt jitter : ℚ) : ℚ :=
  let delay := rtt / 2 + jitter * 2 + 20
  let delay2 := max minInterpolationDelayOpt delay
  let delay3 := min maxInterpolationDelayOpt delay2
  delay3

end NetClient

/-- Modelled from the spec: `clamp(v, lo, hi)` — `v` limited to the
interval from `lo` to `hi`.  Used only to compare the source's
`max`/`min` compositions against the spec's clamp. -/
def clampSpec (lo hi v : ℚ) : ℚ := if v < lo then lo else if hi < v then hi else v

theorem max_min_eq_clampSpec (lo hi v : ℚ) (h : lo ≤ hi) :
    max lo (min hi v) = clampSpec lo hi v := by
  unfold clampSpec
  split_ifs with h1 h2
  · rw [min_eq_right (le_trans (le_of_lt h1) h), max_eq_left (le_of_lt h1)]
  · rw [min_eq_left (le_of_lt h2), max_eq_right h]
  · rw [min_eq_right (not_lt.mp h2), max_eq_right (not_lt.mp h1)]

theorem min_max_eq_clampSpec (lo hi v : ℚ) (h : lo ≤ hi) :
    min hi (max lo v) = clampSpec lo hi v := by
  unfold clampSpec
  split_ifs with h1 h2
  · rw [max_eq_left (le_of_lt h1), min_eq_right h]
  · rw [max_eq_right (not_lt.mp h1), min_eq_left (le_of_lt h2)]
  · rw [max_eq_right (not_lt.mp h1), min_eq_right (not_lt.mp h2)]

/-- C6: for every jitter (and, in `NetClient`, every RTT), the recomputed
adaptive interpolation delay lies within its configured bounds and equals
the clamp of the respective base formula to those bounds: bounds 20–70 ms
with cushion 1.2 over base 30 in `game3d.js`, and bounds 50–200 ms over
`rtt/2 + 2·jitter + 20` in `NetClient.getAdaptiveInterpolationDelay`. -/
theorem adaptiveDelay_clamp (jitter rtt : ℚ) :
    Game3D.minInterpolationDelay ≤ Game3D.adaptiveDelay jitter ∧
      Game3D.adaptiveDelay jitter ≤ Game3D.maxInterpolationDelay ∧
      Game3D.adaptiveDelay jitter =
        clampSpec Game3D.minInterpolationDelay Game3D.maxInterpolationDelay
          (Game3D.baseInterpolationDelay + jitter * (12/10)) ∧
      NetClient.minInterpolationDelayOpt ≤
          NetClient.getAdaptiveInterpolationDelay rtt jitter ∧
      NetClient.getAdaptiveInterpolationDelay rtt jitter ≤
          NetClient.maxInterpolationDelayOpt ∧
      NetClient.getAdaptiveInterpolationDelay rtt jitter =
        clampSpec NetClient.minInterpolationDelayOpt NetClient.maxInterpolationDelayOpt
          (rtt / 2 + jitter * 2 + 20) ∧
      Game3D.minInterpolationDelay = 20 ∧ Game3D.maxInterpolationDelay = 70 ∧
      Game3D.baseInterpolationDelay = 30 ∧
      NetClient.minInterpolationDelayOpt = 50 ∧
      NetClient.maxInterpolationDelayOpt = 200 := by
  unfold Game3D.adaptiveDelay NetClient.getAdaptiveInterpolationDelay
  dsimp only
  refine ⟨le_max_left _ _,
          max_le (by norm_num [Game3D.minInterpolationDelay, Game3D.maxInterpolationDelay])
            (min_le_left _ _),
          max_min_eq_clampSpec _ _ _
            (by norm_num [Game3D.minInterpolationDelay, Game3D.maxInterpolationDelay]),
          le_min
            (by norm_num [NetClient.minInterpolationDelayOpt,
                          NetClient.maxInterpolationDelayOpt])
            (le_max_left _ _),
          min_le_left _ _,
          min_max_eq_clampSpec _ _ _
            (by norm_num [NetClient.minInterpolationDelayOpt,
                          NetClient.maxInterpolationDelayOpt]),
          rfl, rfl, rfl, rfl, rfl⟩

/-- C5: whenever the snapshot search finds a bracketing pair, that pair
does bracket the render time, and the interpolated position lies on the
segment between the two snapshot positions: it is the linear blend by a
factor clamped to the unit interval. -/
theorem interpolation_segment (snaps : List Game3D.Snapshot) (serverNow delay : ℚ)
    (opp : Game3D.Opponent) (s0 s1 : Game3D.Snapshot)
    (hb : Game3D.findBracket snaps (serverNow - delay) = some (s0, s1)) :
    s0.timestamp ≤ serverNow - delay ∧ serverNow - delay ≤ s1.timestamp ∧
      ∃ t, 0 ≤ t ∧ t ≤ 1 ∧
        (Game3D.interpolateOpponentPosition snaps serverNow delay opp).x =
          s0.x + (s1.x - s0.x) * t ∧
        (Game3D.interpolateOpponentPosition snaps serverNow delay opp).z =
          s0.z + (s1.z - s0.z) * t := by
  obtain ⟨h1, h2⟩ := Game3D.findBracket_bracket snaps (serverNow - delay) s0 s1 hb
  refine ⟨h1, h2, ?_⟩
  unfold Game3D.interpolateOpponentPosition
  rw [if_neg (Nat.not_lt.mpr (Game3D.findBracket_some_len snaps (serverNow - delay) (s0, s1) hb))]
  dsimp only
  rw [hb]
  exact ⟨max 0 (min 1 (if s1.timestamp - s0.timestamp > 0 then
            (serverNow - delay - s0.timestamp) / (s1.timestamp - s0.timestamp) else 0)),
         le_max_left _ _, max_le (by norm_num) (min_le_left _ _), rfl, rfl⟩

/-- C5 (witness): the spec's concrete scenario — snapshots at t=100 with
x=0 and t=200 with x=10, render time 150: the interpolated x is 5. -/
theorem interpolation_segment_witness :
    ((100:ℚ) ≤ 150 - 0 ∧ (150:ℚ) - 0 ≤ 200 ∧
      ∃ t, 0 ≤ t ∧ t ≤ 1 ∧
        (Game3D.interpolateOpponentPosition
          [ { timestamp := 100, x := 0, z := 0, targetX := none, targetZ := none,
              isMoving := false },
            { timestamp := 200, x := 10, z := 0, targetX := none, targetZ := none,
              isMoving := false } ] 150 0
          { x := 0, z := 0, targetX := none, targetZ := none, isMoving := false }).x =
          0 + (10 - 0) * t ∧
        (Game3D.interpolateOpponentPosition
          [ { timestamp := 100, x := 0, z := 0, targetX := none, targetZ := none,
              isMoving := false },
            { timestamp := 200, x := 10, z := 0, targetX := none, targetZ := none,
              isMoving := false } ] 150 0
          { x := 0, z := 0, targetX := none, targetZ := none, isMoving := false }).z =
          0 + (0 - 0) * t) ∧
      (Game3D.interpolateOpponentPosition
          [ { timestamp := 100, x := 0, z := 0, targetX := none, targetZ := none,
              isMoving := false },
            { timestamp := 200, x := 10, z := 0, targetX := none, targetZ := none,
              isMoving := false } ] 150 0
          { x := 0, z := 0, targetX := none, targetZ := none, isMoving := false }).x = 5 :=
  ⟨interpolation_segment
      [ { timestamp := 100, x := 0, z := 0, targetX := none, targetZ := none,
          isMoving := false },
        { timestamp := 200, x := 10, z := 0, targetX := none, targetZ := none,
          isMoving := false } ] 150 0
      { x := 0, z := 0, targetX := none, targetZ := none, isMoving := false }
      { timestamp := 100, x := 0, z := 0, targetX := none, targetZ := none,
        isMoving := false }
      { timestamp := 200, x := 10, z := 0, targetX := none, targetZ := none,
        isMoving := false }
      (by norm_num [Game3D.findBracket]),
   by norm_num [Game3D.interpolateOpponentPosition, Game3D.findBracket, min_def, max_def]⟩

/-- C7 (counterexample): with a single buffered snapshot (at x = 5) the
function returns the opponent record unchanged (early return on
`length < 2`) — the opponent at x = 3 is not moved to the latest
snapshot's position, contrary to the claim's "held at the latest
snapshot's position". -/
theorem interpolation_hold_counterexample :
    Game3D.interpolateOpponentPosition
        [ { timestamp := 0, x := 5, z := 0, targetX := none, targetZ := none,
            isMoving := false } ] 1000 50
        { x := 3, z := 0, targetX := none, targetZ := none, isMoving := false } =
      { x := 3, z := 0, targetX := none, targetZ := none, isMoving := false } ∧
      (3:ℚ) ≠ 5 :=
  ⟨rfl, by norm_num⟩

/-- C7 (amended): when the render time is ahead of every buffered snapshot
and at least two snapshots exist, the position is extrapolated from the
velocity between the two most recent snapshots with the horizon capped at
100 ms past the newest snapshot — but only when the two snapshots are
separated by a positive gap under 200 ms; otherwise the position snaps to
the newest snapshot.  With fewer than two snapshots the function is a
no-op (it does not hold the latest snapshot's position). -/
theorem interpolation_extrapolation (snaps : List Game3D.Snapshot)
    (serverNow delay : ℚ) (opp : Game3D.Opponent) (latest prev : Game3D.Snapshot)
    (hlatest : snaps.get? (snaps.length - 1) = some latest)
    (hprev : snaps.get? (snaps.length - 2) = some prev)
    (hlen : 2 ≤ snaps.length)
    (hahead : ∀ s ∈ snaps, s.timestamp < serverNow - delay) :
    (0 < latest.timestamp - prev.timestamp ∧ latest.timestamp - prev.timestamp < 200 →
      (Game3D.interpolateOpponentPosition snaps serverNow delay opp).x =
          latest.x + (latest.x - prev.x) / (latest.timestamp - prev.timestamp) *
            min 100 (serverNow - latest.timestamp) ∧
        (Game3D.interpolateOpponentPosition snaps serverNow delay opp).z =
          latest.z + (latest.z - prev.z) / (latest.timestamp - prev.timestamp) *
            min 100 (serverNow - latest.timestamp) ∧
        min 100 (serverNow - latest.timestamp) ≤ 100) ∧
      (¬ (0 < latest.timestamp - prev.timestamp ∧
            latest.timestamp - prev.timestamp < 200) →
        (Game3D.interpolateOpponentPosition snaps serverNow delay opp).x = latest.x ∧
          (Game3D.interpolateOpponentPosition snaps serverNow delay opp).z = latest.z) ∧
      (∀ snaps2 : List Game3D.Snapshot, snaps2.length < 2 →
        Game3D.interpolateOpponentPosition snaps2 serverNow delay opp = opp) := by
  have hnb : Game3D.findBracket snaps (serverNow - delay) = none :=
    Game3D.findBracket_ahead snaps (serverNow - delay) hahead
  unfold Game3D.interpolateOpponentPosition
  rw [if_neg (Nat.not_lt.mpr hlen)]
  dsimp only
  rw [hnb, hlatest, hprev, if_pos hlen]
  simp only [Option.getD_some]
  refine ⟨fun h => ?_, fun h => ?_, fun snaps2 h2 => ?_⟩
  · rw [if_pos h]
    exact ⟨rfl, rfl, min_le_left _ _⟩
  · rw [if_neg h]
    exact ⟨rfl, rfl⟩
  · rw [if_pos h2]

/-- C7 (witness): snapshots at (t=100, x=0) and (t=200, x=10), render time
300 (serverNow 350, delay 50): the gap is 100 ms, the capped horizon is
min(100, 350−200) = 100, and the extrapolated x is 10 + 0.1·100 = 20. -/
theorem interpolation_extrapolation_witness :
    ((0:ℚ) < 200 - 100 ∧ (200:ℚ) - 100 < 200) ∧
      ((Game3D.interpolateOpponentPosition
          [ { timestamp := 100, x := 0, z := 0, targetX := none, targetZ := none,
              isMoving := false },
            { timestamp := 200, x := 10, z := 0, targetX := none, targetZ := none,
              isMoving := false } ] 350 50
          { x := 0, z := 0, targetX := none, targetZ := none, isMoving := false }).x =
        10 + (10 - 0) / (200 - 100) * min 100 (350 - 200)) ∧
      ((10:ℚ) + (10 - 0) / (200 - 100) * min 100 (350 - 200) = 20) :=
  ⟨⟨by norm_num, by norm_num⟩,
   ((interpolation_extrapolation
      [ { timestamp := 100, x := 0, z := 0, targetX := none, targetZ := none,
          isMoving := false },
        { timestamp := 200, x := 10, z := 0, targetX := none, targetZ := none,
          isMoving := false } ] 350 50
      { x := 0, z := 0, targetX := none, targetZ := none, isMoving := false }
      { timestamp := 200, x := 10, z := 0, targetX := none, targetZ := none,
        isMoving := false }
      { timestamp := 100, x := 0, z := 0, targetX := none, targetZ := none,
        isMoving := false }
      rfl rfl (by norm_num)
      (by
        intro s hs
        simp only [List.mem_cons, List.not_mem_nil, or_false] at hs
        rcases hs with h|h <;> subst h <;> norm_num)).1
     (by norm_num)).1,
   by norm_num [min_def]⟩

namespace NetClient

/-- A (possibly partial) player object as carried in state messages and in
`lastKnownState.players`: only `playerId` is always present. -/
structure PPlayer where
  playerId : Nat
  x : Option ℚ
  z : Option ℚ
  health : Option ℚ
  isDead : Option Bool
  isMoving : Option Bool
deriving DecidableEq, Repr

/-- A (possibly partial) knife object, keyed by `knifeId`. -/
structure PKnife where
  knifeId : Nat
  x : Option ℚ
  z : Option ℚ
deriving DecidableEq, Repr

/-- A field of a JS object spread `\x7b...cached, ...delta\x7d`: the delta's
value when present, else the cached one. -/
def spreadField {α : Type} (delta cached : Option α) : Option α :=
  match delta with
  | some v => some v
  | none => cached

/-- `\x7b...cached, ...playerDelta\x7d` on player objects. -/
def mergePlayer (cached delta : PPlayer) : PPlayer :=
  { playerId := delta.playerId,
    x := spreadField delta.x cached.x,
    z := spreadField delta.z cached.z,
    health := spreadField delta.health cached.health,
    isDead := spreadField delta.isDead cached.isDead,
    isMoving := spreadField delta.isMoving cached.isMoving }

/-- `\x7b...cached, ...knifeDelta\x7d` on knife objects. -/
def mergeKnife (cached delta : PKnife) : PKnife :=
  { knifeId := delta.knifeId,
    x := spreadField delta.x cached.x,
    z := spreadField delta.z cached.z }

/-- `this.lastKnownState`: the two id-keyed delta-compression caches. -/
structure LastKnownState where
  players : Nat → Option PPlayer
  knives : Nat → Option PKnife

/-- An inbound delta state message (absent arrays modelled as empty). -/
structure DeltaMsg where
  serverTick : Nat
  serverTime : ℚ
  players : List PPlayer
  knives : List PKnife
  removedKnives : List Nat

/-- The reconstructed full state returned by `_applyDeltaState`. -/
structure FullState where
  serverTick : Nat
  serverTime : ℚ
  players : List PPlayer
  knives : List PKnife

/-- One iteration of the player-delta loop: merge over the cache when a
cached entry exists, push the merged object, store it back in the cache. -/
def playerStep (acc : List PPlayer × (Nat → Option PPlayer)) (pd : PPlayer) :
    List PPlayer × (Nat → Option PPlayer) :=
  let fullPlayer :=
    match acc.2 pd.playerId with
    | some cached => mergePlayer cached pd
    | none => pd
  (acc.1 ++ [fullPlayer], fun k => if k = pd.playerId then some fullPlayer else acc.2 k)

/-- One iteration of the knife-delta loop. -/
def knifeStep (acc : List PKnife × (Nat → Option PKnife)) (kd : PKnife) :
    List PKnife × (Nat → Option PKnife) :=
  let fullKnife :=
    match acc.2 kd.knifeId with
    | some cached => mergeKnife cached kd
    | none => kd
  (acc.1 ++ [fullKnife], fun k => if k = kd.knifeId then some fullKnife else acc.2 k)

/-- `NetClient._applyDeltaState(deltaData)`: fold the player and knife
deltas over the cache, then delete the `removedKnives` ids from the knife
cache; returns the reconstructed full state and the updated cache. -/
def applyDeltaState (cache : LastKnownState) (deltaData : DeltaMsg) :
    FullState × LastKnownState :=
  let pacc := deltaData.players.foldl playerStep ([], cache.players)
  let kacc := deltaData.knives.foldl knifeStep ([], cache.knives)
  let kmap := deltaData.removedKnives.foldl
      (fun m knifeId => fun k => if k = knifeId then none else m k) kacc.2
  ({ serverTick := deltaData.serverTick, serverTime := deltaData.serverTime,
     players := pacc.1, knives := kacc.1 },
   { players := pacc.2, knives := kmap })

theorem playerStep_ids (l : List PPlayer) (acc : List PPlayer × (Nat → Option PPlayer)) :
    ((l.foldl playerStep acc).1).map PPlayer.playerId =
      acc.1.map PPlayer.playerId ++ l.map PPlayer.playerId := by
  induction l generalizing acc with
  | nil => simp
  | cons pd l ih =>
    rw [List.foldl_cons, ih]
    have hid : (playerStep acc pd).1.map PPlayer.playerId =
        acc.1.map PPlayer.playerId ++ [pd.playerId] := by
      unfold playerStep
      dsimp only
      rw [List.map_append]
      cases h : acc.2 pd.playerId <;> simp [h, mergePlayer]
    rw [hid, List.map_cons, List.append_assoc, List.singleton_append]

theorem knifeStep_ids (l : List PKnife) (acc : List PKnife × (Nat → Option PKnife)) :
    ((l.foldl knifeStep acc).1).map PKnife.knifeId =
      acc.1.map PKnife.knifeId ++ l.map PKnife.knifeId := by
  induction l generalizing acc with
  | nil => simp
  | cons kd l ih =>
    rw [List.foldl_cons, ih]
    have hid : (knifeStep acc kd).1.map PKnife.knifeId =
        acc.1.map PKnife.knifeId ++ [kd.knifeId] := by
      unfold knifeStep
      dsimp only
      rw [List.map_append]
      cases h : acc.2 kd.knifeId <;> simp [h, mergeKnife]
    rw [hid, List.map_cons, List.append_assoc, List.singleton_append]

theorem playerStep_cache (l : List PPlayer) (acc : List PPlayer × (Nat → Option PPlayer))
    (k : Nat) (hk : k ∉ l.map PPlayer.playerId) :
    (l.foldl playerStep acc).2 k = acc.2 k := by
  induction l generalizing acc with
  | nil => rfl
  | cons pd l ih =>
    simp only [List.map_cons, List.mem_cons] at hk
    push_neg at hk
    rw [List.foldl_cons, ih _ hk.2]
    unfold playerStep
    dsimp only
    rw [if_neg hk.1]

theorem knifeStep_cache (l : List PKnife) (acc : List PKnife × (Nat → Option PKnife))
    (k : Nat) (hk : k ∉ l.map PKnife.knifeId) :
    (l.foldl knifeStep acc).2 k = acc.2 k := by
  induction l generalizing acc with
  | nil => rfl
  | cons kd l ih =>
    simp only [List.map_cons, List.mem_cons] at hk
    push_neg at hk
    rw [List.foldl_cons, ih _ hk.2]
    unfold knifeStep
    dsimp only
    rw [if_neg hk.1]

theorem removeFold_cache (l : List Nat) (m : Nat → Option PKnife) (k : Nat)
    (hk : k ∉ l) :
    (l.foldl (fun m knifeId => fun j => if j = knifeId then none else m j) m) k = m k := by
  induction l generalizing m with
  | nil => rfl
  | cons kid l ih =>
    simp only [List.mem_cons] at hk
    push_neg at hk
    rw [List.foldl_cons, ih _ hk.2]
    rw [if_neg hk.1]

end NetClient

/-- C10 (counterexample): a delta whose `players` array mentions the same
entity twice produces two entries for that entity in the reconstructed
full state, not exactly one. -/
theorem applyDeltaState_counterexample :
    ((NetClient.applyDeltaState
        { players := fun _ => none, knives := fun _ => none }
        { serverTick := 0, serverTime := 0,
          players := [ { playerId := 1, x := some 1, z := none, health := none,
                         isDead := none, isMoving := none },
                       { playerId := 1, x := some 2, z := none, health := none,
                         isDead := none, isMoving := none } ],
          knives := [], removedKnives := [] }).1.players.map
        NetClient.PPlayer.playerId) = [1, 1] ∧
      ¬ ([1, 1] : List Nat).Nodup :=
  ⟨rfl, by decide⟩

/-- C10 (amended): the reconstructed full state delivered by
`_applyDeltaState` contains exactly one entry per element of the delta's
`players` and `knives` arrays, with the same ids in the same order, and no
entry for any other entity — so exactly one entry per mentioned entity
when the delta mentions each entity at most once; cache entries for
entities not mentioned in the delta (and, for knives, not listed in
`removedKnives`) are left unchanged in `lastKnownState`. -/
theorem netClient_applyDeltaState_spec (cache : NetClient.LastKnownState)
    (d : NetClient.DeltaMsg) :
    ((NetClient.applyDeltaState cache d).1.players.map NetClient.PPlayer.playerId =
        d.players.map NetClient.PPlayer.playerId) ∧
      ((NetClient.applyDeltaState cache d).1.knives.map NetClient.PKnife.knifeId =
        d.knives.map NetClient.PKnife.knifeId) ∧
      ((d.players.map NetClient.PPlayer.playerId).Nodup →
        ((NetClient.applyDeltaState cache d).1.players.map
            NetClient.PPlayer.playerId).Nodup) ∧
      (∀ k, k ∉ d.players.map NetClient.PPlayer.playerId →
        (NetClient.applyDeltaState cache d).2.players k = cache.players k) ∧
      (∀ k, k ∉ d.knives.map NetClient.PKnife.knifeId → k ∉ d.removedKnives →
        (NetClient.applyDeltaState cache d).2.knives k = cache.knives k) := by
  unfold NetClient.applyDeltaState
  dsimp only
  refine ⟨?_, ?_, ?_, ?_, ?_⟩
  · rw [NetClient.playerStep_ids]
    simp
  · rw [NetClient.knifeStep_ids]
    simp
  · intro h
    rw [NetClient.playerStep_ids]
    simpa using h
  · intro k hk
    exact NetClient.playerStep_cache _ _ _ hk
  · intro k hk hr
    rw [NetClient.removeFold_cache _ _ _ hr]
    exact NetClient.knifeStep_cache _ _ _ hk

/-- C10 (witness): applying a delta that mentions player 1 and knife 7 and
removes knife 9 leaves the cache entries of player 42 and knife 8
untouched. -/
theorem netClient_applyDeltaState_spec_witness :
    ((NetClient.applyDeltaState
        { players := fun _ => none, knives := fun _ => none }
        { serverTick := 3, serverTime := 500,
          players := [ { playerId := 1, x := some 1, z := some 0, health := none,
                         isDead := none, isMoving := none } ],
          knives := [ { knifeId := 7, x := some 4, z := some 4 } ],
          removedKnives := [9] }).1.players.map NetClient.PPlayer.playerId =
        [1]) ∧
      ((NetClient.applyDeltaState
        { players := fun _ => none, knives := fun _ => none }
        { serverTick := 3, serverTime := 500,
          players := [ { playerId := 1, x := some 1, z := some 0, health := none,
                         isDead := none, isMoving := none } ],
          knives := [ { knifeId := 7, x := some 4, z := some 4 } ],
          removedKnives := [9] }).2.players 42 =
        (fun _ => (none : Option NetClient.PPlayer)) 42) ∧
      ((NetClient.applyDeltaState
        { players := fun _ => none, knives := fun _ => none }
        { serverTick := 3, serverTime := 500,
          players := [ { playerId := 1, x := some 1, z := some 0, health := none,
                         isDead := none, isMoving := none } ],
          knives := [ { knifeId := 7, x := some 4, z := some 4 } ],
          removedKnives := [9] }).2.knives 8 =
        (fun _ => (none : Option NetClient.PKnife)) 8) :=
  ⟨(netClient_applyDeltaState_spec
      { players := fun _ => none, knives := fun _ => none }
      { serverTick := 3, serverTime := 500,
        players := [ { playerId := 1, x := some 1, z := some 0, health := none,
                       isDead := none, isMoving := none } ],
        knives := [ { knifeId := 7, x := some 4, z := some 4 } ],
        removedKnives := [9] }).1,
   (netClient_applyDeltaState_spec
      { players := fun _ => none, knives := fun _ => none }
      { serverTick := 3, serverTime := 500,
        players := [ { playerId := 1, x := some 1, z := some 0, health := none,
                       isDead := none, isMoving := none } ],
        knives := [ { knifeId := 7, x := some 4, z := some 4 } ],
        removedKnives := [9] }).2.2.2.1 42 (by decide),
   (netClient_applyDeltaState_spec
      { players := fun _ => none, knives := fun _ => none }
      { serverTick := 3, serverTime := 500,
        players := [ { playerId := 1, x := some 1, z := some 0, health := none,
                       isDead := none, isMoving := none } ],
        knives := [ { knifeId := 7, x := some 4, z := some 4 } ],
        removedKnives := [9] }).2.2.2.2 8 (by decide) (by decide)⟩

namespace Reconciler

/-- The local player's fields touched by reconciliation. -/
structure Player where
  x : ℝ
  z : ℝ
  targetX : Option ℝ
  targetZ : Option ℝ
  isMoving : Bool
  health : ℝ
  isDead : Bool

/-- An authoritative server state for the local player; `health` and
`isDead` may be absent (`undefined`). -/
structure ServerState where
  x : ℝ
  z : ℝ
  health : Option ℝ
  isDead : Option Bool

/-- A buffered input payload; the two target fields may be absent. -/
structure Input where
  targetX : Option ℝ
  targetZ : Option ℝ

/-- `Reconciler.applyInput(player, input)`: deterministic single-input
movement step — set the movement target, then advance the position by at
most one 60 FPS tick of `moveSpeed` toward it (arriving exactly when the
remaining distance fits in one step); distances at most 0.1 do not move.
`speed` stands for `this.game.PLAYER_SPEED || 23.4`. -/
noncomputable def applyInput (speed : ℝ) (player : Player) (input : Option Input) :
    Player :=
  match input with
  | none => player
  | some inp =>
    match inp.targetX, inp.targetZ with
    | some tx, some tz =>
      let p := { player with targetX := some tx, targetZ := some tz, isMoving := true }
      let dx := tx - p.x
      let dz := tz - p.z
      let distance := Real.sqrt (dx * dx + dz * dz)
      if distance > 1/10 then
        let maxMove := speed * (1/60)
        if distance ≤ maxMove then
          { p with x := tx, z := tz, isMoving := false }
        else
          { p with x := p.x + dx * (maxMove / distance),
                   z := p.z + dz * (maxMove / distance) }
      else p
    | _, _ => player

/-- Steps 2–3 of `Reconciler.reconcile`: overwrite position (and health /
death flag when present) with the authoritative values, then replay every
unacknowledged input in order. -/
noncomputable def replayResult (speed : ℝ) (player : Player) (ss : ServerState)
    (unacked : List Input) : Player :=
  let p1 := { player with x := ss.x, z := ss.z }
  let p2 := match ss.health with
            | some h => { p1 with health := h }
            | none => p1
  let p3 := match ss.isDead with
            | some dead => { p2 with isDead := dead }
            | none => p2
  unacked.foldl (fun pl inp => applyInput speed pl (some inp)) p3

/-- The reconciliation position error: the Euclidean distance between the
predicted position and the position after replay. -/
noncomputable def errMag (speed : ℝ) (player : Player) (ss : ServerState)
    (unacked : List Input) : ℝ :=
  let p4 := replayResult speed player ss unacked
  let errorX := p4.x - player.x
  let errorZ := p4.z - player.z
  Real.sqrt (errorX * errorX + errorZ * errorZ)

/-- The mutable fields of a `Reconciler` instance. -/
structure RState where
  smoothingEnabled : Bool
  smoothingDuration : ℝ
  correctionInProgress : Bool
  correctionStartTime : ℝ
  correctionStartPos : ℝ × ℝ
  correctionTargetPos : ℝ × ℝ
  totalCorrections : Nat
  totalCorrectionMagnitude : ℝ
  maxCorrectionMagnitude : ℝ
  lastCorrectionTime : ℝ

/-- `Reconciler.reconcile(serverState, unackedInputs)` at local time
`now`: no-op without a local player; otherwise overwrite-and-replay, then
branch on the error magnitude: at most 0.1 — keep the replayed position
and leave the correction state untouched; between 0.1 and 10 with
smoothing enabled — start a correction, snap the player back to the
predicted position with the replayed position as target; otherwise —
keep the replayed position with the correction cleared.  Returns the new
reconciler state and player. -/
noncomputable def reconcile (speed now : ℝ) (rs : RState) (playerSelf : Option Player)
    (ss : ServerState) (unacked : List Input) : RState × Option Player :=
  match playerSelf with
  | none => (rs, none)
  | some player =>
    let predictedX := player.x
    let predictedZ := player.z
    let p4 := replayResult speed player ss unacked
    let errorMagnitude := errMag speed player ss unacked
    if errorMagnitude > 1/10 then
      let rs1 := { rs with
        totalCorrections := rs.totalCorrections + 1,
        totalCorrectionMagnitude := rs.totalCorrectionMagnitude + errorMagnitude,
        maxCorrectionMagnitude := max rs.maxCorrectionMagnitude errorMagnitude,
        lastCorrectionTime := now }
      if rs.smoothingEnabled ∧ errorMagnitude < 10 then
        ({ rs1 with correctionInProgress := true,
                    correctionStartTime := now,
                    correctionStartPos := (predictedX, predictedZ),
                    correctionTargetPos := (p4.x, p4.z) },
         some { p4 with x := predictedX, z := predictedZ })
      else
        ({ rs1 with correctionInProgress := false }, some p4)
    else
      (rs, some p4)

end Reconciler

/-- C3: with a local player present and smoothing enabled, writing `r` for
the position obtained by overwriting with the server state and replaying
the unacknowledged inputs and `e` for the distance between the predicted
position and `r`: below the 0.1 visible threshold the player ends at `r`
and the reconciler state is untouched (no correction started); strictly
between 0.1 and 10 a correction becomes active with the rendered position
snapped back to the predicted one and `r` as the correction target; at or
above the 10-unit teleport threshold the player ends at `r` with no
correction active. -/
theorem reconciler_thresholds (speed now : ℝ) (rs : Reconciler.RState)
    (pl : Reconciler.Player) (ss : Reconciler.ServerState)
    (inputs : List Reconciler.Input) (hs : rs.smoothingEnabled = true) :
    (Reconciler.errMag speed pl ss inputs < 1/10 →
      Reconciler.reconcile speed now rs (some pl) ss inputs =
        (rs, some (Reconciler.replayResult speed pl ss inputs))) ∧
      (1/10 < Reconciler.errMag speed pl ss inputs →
        Reconciler.errMag speed pl ss inputs < 10 →
        (Reconciler.reconcile speed now rs (some pl) ss inputs).1.correctionInProgress =
            true ∧
          (Reconciler.reconcile speed now rs (some pl) ss inputs).2 =
            some { Reconciler.replayResult speed pl ss inputs with x := pl.x, z := pl.z } ∧
          (Reconciler.reconcile speed now rs (some pl) ss inputs).1.correctionStartPos =
            (pl.x, pl.z) ∧
          (Reconciler.reconcile speed now rs (some pl) ss inputs).1.correctionTargetPos =
            ((Reconciler.replayResult speed pl ss inputs).x,
              (Reconciler.replayResult speed pl ss inputs).z)) ∧
      (10 ≤ Reconciler.errMag speed pl ss inputs →
        (Reconciler.reconcile speed now rs (some pl) ss inputs).2 =
            some (Reconciler.replayResult speed pl ss inputs) ∧
          (Reconciler.reconcile speed now rs (some pl) ss inputs).1.correctionInProgress =
            false) := by
  unfold Reconciler.reconcile
  dsimp only
  refine ⟨fun h => ?_, fun h1 h2 => ?_, fun h => ?_⟩
  · rw [if_neg (not_lt.mpr (le_of_lt h))]
  · rw [if_pos h1, if_pos ⟨hs, h2⟩]
    exact ⟨rfl, rfl, rfl, rfl⟩
  · have h1 : (1:ℝ)/10 < Reconciler.errMag speed pl ss inputs :=
      lt_of_lt_of_le (by norm_num) h
    rw [if_pos h1, if_neg (fun hc => absurd hc.2 (not_lt.mpr h))]
    exact ⟨rfl, rfl⟩

/-- The concrete reconciler state for the C3 witness: smoothing enabled,
no correction in progress. -/
noncomputable def rsW : Reconciler.RState :=
  { smoothingEnabled := true, smoothingDuration := 100,
    correctionInProgress := false, correctionStartTime := 0,
    correctionStartPos := (0, 0), correctionTargetPos := (0, 0),
    totalCorrections := 0, totalCorrectionMagnitude := 0,
    maxCorrectionMagnitude := 0, lastCorrectionTime := 0 }

/-- The concrete predicted player for the C3 witness, at (3, 0). -/
noncomputable def plW : Reconciler.Player :=
  { x := 3, z := 0, targetX := none, targetZ := none, isMoving := false,
    health := 100, isDead := false }

/-- The concrete server state for the C3 witness, at the origin. -/
noncomputable def ssW : Reconciler.ServerState :=
  { x := 0, z := 0, health := none, isDead := none }

theorem errMag_witness_value : Reconciler.errMag 0 plW ssW [] = 3 := by
  unfold Reconciler.errMag Reconciler.replayResult plW ssW
  dsimp only
  simp only [List.foldl_nil]
  rw [show ((0:ℝ) - 3) * ((0:ℝ) - 3) + ((0:ℝ) - 0) * ((0:ℝ) - 0) = 3 ^ 2 by norm_num]
  exact Real.sqrt_sq (by norm_num)

/-- C3 (witness): with the player predicted at (3, 0) and the server at
the origin with no unacknowledged inputs, the error is 3 — between the
thresholds — so a correction starts: the player stays at (3, 0), the
correction target is the replayed position (the origin). -/
theorem reconciler_thresholds_witness :
    ((1:ℝ)/10 < 3 ∧ (3:ℝ) < 10) ∧
      (Reconciler.reconcile 0 1234 rsW (some plW) ssW []).1.correctionInProgress =
          true ∧
      (Reconciler.reconcile 0 1234 rsW (some plW) ssW []).1.correctionStartPos =
          (plW.x, plW.z) ∧
      (Reconciler.reconcile 0 1234 rsW (some plW) ssW []).2 =
          some { Reconciler.replayResult 0 plW ssW [] with x := plW.x, z := plW.z } := by
  have hm := (reconciler_thresholds 0 1234 rsW plW ssW [] rfl).2.1
    (by rw [errMag_witness_value]; norm_num)
    (by rw [errMag_witness_value]; norm_num)
  exact ⟨⟨by norm_num, by norm_num⟩, hm.1, hm.2.2.1, hm.2.1⟩
